import Mathlib

/-!
Verification development for an image-analysis pipeline:
a batch consumer over queued image jobs (`AnalyseImageFunction.py`),
a model lifecycle start/stop controller (`StartModelFunction.py`,
`StopModelFunction.py`), and a queue-backlog gate (`sqs_poller.py`).

The Python sources are shallowly embedded: JSON values are an inductive
type, external services (JSON parsing of the transport body, the label
detection backend, the document-store HTTP endpoint) are oracles carried
in an environment record, and exceptions become `Except` values.
External side effects are recorded as explicit effect lists.
-/

/-- JSON-like values, the result of `json.loads` and the shape of API
responses navigated by the handlers. -/
inductive Json where
  | null
  | bool (b : Bool)
  | num (n : Int)
  | str (s : String)
  | arr (xs : List Json)
  | obj (kvs : List (String × Json))

/-- Association-list lookup, embedding Python `d[k]` for a dict
(first matching key; error when absent). -/
def lookupKey : List (String × Json) → String → Except Unit Json
  | [], _ => .error ()
  | (k, v) :: rest, key => if k = key then .ok v else lookupKey rest key

/-- Python subscripting `x[k]` with a string key: succeeds only on a
dict containing the key; every other shape raises (`KeyError`/`TypeError`). -/
def Json.getKey : Json → String → Except Unit Json
  | .obj kvs, key => lookupKey kvs key
  | _, _ => .error ()

/-- Python subscripting `x[0]`: first element of a list (IndexError when
empty), first character of a string, error on every other shape. -/
def Json.getIdx0 : Json → Except Unit Json
  | .arr (x :: _) => .ok x
  | .str s =>
    match s.data with
    | c :: _ => .ok (.str (String.mk [c]))
    | [] => .error ()
  | _ => .error ()

/-- List prefix test on characters (used for the substring test below). -/
def listLead : List Char → List Char → Bool
  | [], _ => true
  | _ :: _, [] => false
  | a :: as, b :: bs => a = b && listLead as bs

/-- List substring (contiguous) test on characters. -/
def listInside (pat : List Char) : List Char → Bool
  | [] => pat.isEmpty
  | b :: bs => listLead pat (b :: bs) || listInside pat bs

/-- Python `k in x`: key containment for dicts, element equality for
lists (a JSON element equals the string `k` only if it is that string),
substring containment for strings, `TypeError` otherwise. -/
def pyIn (j : Json) (key : String) : Except Unit Bool :=
  match j with
  | .obj kvs => .ok (kvs.any (fun p => p.1 = key))
  | .arr xs => .ok (xs.any (fun x => match x with | .str t => t = key | _ => false))
  | .str t => .ok (listInside key.data t.data)
  | _ => .error ()

/-- Python falsiness of a string (empty string). -/
def strEmpty (s : String) : Bool := s.data.isEmpty

/-- Python truthiness of a JSON-derived value. -/
def pyTruthy : Json → Bool
  | .null => false
  | .bool b => b
  | .num n => n != 0
  | .str s => !strEmpty s
  | .arr xs => !xs.isEmpty
  | .obj kvs => !kvs.isEmpty

/-- Python iteration `for x in v`: elements of a list, keys of a dict,
characters of a string; `TypeError` on non-iterables. -/
def pyIter : Json → Except Unit (List Json)
  | .arr xs => .ok xs
  | .obj kvs => .ok (kvs.map (fun p => Json.str p.1))
  | .str s => .ok (s.data.map (fun c => Json.str (String.mk [c])))
  | _ => .error ()

/-- A value usable as a Python `str` (string methods raise on anything else). -/
def Json.asStr : Json → Except Unit String
  | .str s => .ok s
  | _ => .error ()

/-- `key.replace("+", " ")` on one character. -/
def plusToSpace (c : Char) : Char := if c = '+' then ' ' else c

/-- `key.replace("+", " ")`: decode every `+` of the raw object key to a
space before use. -/
def decodeKey (s : String) : String := String.mk (s.data.map plusToSpace)

/-- `",".join(names)`. -/
def joinComma : List String → String
  | [] => ""
  | [s] => s
  | s :: rest => s ++ "," ++ joinComma rest

/-- One SQS transport envelope as delivered by the queue: a message id
and the raw body string. -/
structure SqsMsg where
  messageId : String
  body : String

/-- The payload of the document-store property-set request
(`xpath`/`save` are fixed by the handler; `value` and `input` vary). -/
structure NuxeoPayload where
  xpath : String
  save : String
  value : String
  input : Json

/-- External side effects issued by the batch consumer, in order. -/
inductive Effect where
  | detect (bucket : Json) (key : String)
  | publish (url : String) (payload : NuxeoPayload)
  | dlqSend (body : String)

/-- Environment of `AnalyseImageFunction.lambda_handler`: configuration
read from `os.environ` and oracles for the external collaborators. -/
structure AEnv where
  nuxeoUrl : Option String
  nuxeoUser : Option String
  nuxeoPassword : Option String
  dlqUrl : Option String
  modelArn : Option String
  jsonParse : String → Except Unit Json
  detect : String → Json → String → Except Unit Json
  post : String → NuxeoPayload → Except Unit Nat

/-- Per-message outcome: the entry appended to `processed_messages`,
or failure (the message is appended to `failed_messages`). -/
inductive Outcome where
  | success (docUid : Json) (labels : List Json) (nuxeoStatus : Nat)
  | failure

def Outcome.isFailure : Outcome → Bool
  | .failure => true
  | _ => false

/-- `msg_payload["Records"][0]` guarded by `"Records" in msg_payload`
(the guard failing is the invalid-message branch, also a Failure). -/
def firstRecord (p : Json) : Except Unit Json :=
  match pyIn p "Records" with
  | .error e => .error e
  | .ok false => .error ()
  | .ok true =>
    match p.getKey "Records" with
    | .error e => .error e
    | .ok v => v.getIdx0

/-- `record["s3"]["bucket"]["name"]`. -/
def bucketOf (r : Json) : Except Unit Json :=
  match r.getKey "s3" with
  | .error e => .error e
  | .ok s3 =>
    match s3.getKey "bucket" with
    | .error e => .error e
    | .ok b => b.getKey "name"

/-- `record["s3"]["object"]["key"]`, required to be a string because the
handler immediately calls `.replace` on it. -/
def rawObjectKey (r : Json) : Except Unit String :=
  match r.getKey "s3" with
  | .error e => .error e
  | .ok s3 =>
    match s3.getKey "object" with
    | .error e => .error e
    | .ok o =>
      match o.getKey "key" with
      | .error e => .error e
      | .ok k => k.asStr

/-- `record["s3"]["documentUUID"]["uid"]`. -/
def docUidOf (r : Json) : Except Unit Json :=
  match r.getKey "s3" with
  | .error e => .error e
  | .ok s3 =>
    match s3.getKey "documentUUID" with
    | .error e => .error e
    | .ok d => d.getKey "uid"

/-- Parse and validate one message body: `json.loads`, the `Records`
guard, extraction of bucket / decoded key / document uid in source
order, then the `all([bucket, image, doc_uid])` truthiness check. -/
def parseJob (env : AEnv) (body : String) : Except Unit (Json × String × Json) :=
  match env.jsonParse body with
  | .error e => .error e
  | .ok p =>
    match firstRecord p with
    | .error e => .error e
    | .ok r =>
      match bucketOf r with
      | .error e => .error e
      | .ok bucket =>
        match rawObjectKey r with
        | .error e => .error e
        | .ok rawKey =>
          match docUidOf r with
          | .error e => .error e
          | .ok docUid =>
            if pyTruthy bucket && !strEmpty (decodeKey rawKey) && pyTruthy docUid then
              .ok (bucket, decodeKey rawKey, docUid)
            else .error ()

/-- `[label["Name"] for label in response["CustomLabels"]]`. -/
def exMapNames : List Json → Except Unit (List Json)
  | [] => .ok []
  | l :: ls =>
    match l.getKey "Name" with
    | .error e => .error e
    | .ok v =>
      match exMapNames ls with
      | .error e => .error e
      | .ok vs => .ok (v :: vs)

/-- The label-name list from the detection response. -/
def labelNames (resp : Json) : Except Unit (List Json) :=
  match resp.getKey "CustomLabels" with
  | .error e => .error e
  | .ok labelsJ =>
    match pyIter labelsJ with
    | .error e => .error e
    | .ok labels => exMapNames labels

/-- `",".join` requires every joined element to be a string. -/
def exMapStr : List Json → Except Unit (List String)
  | [] => .ok []
  | l :: ls =>
    match l.asStr with
    | .error e => .error e
    | .ok v =>
      match exMapStr ls with
      | .error e => .error e
      | .ok vs => .ok (v :: vs)

/-- `",".join(label_names) if label_names else "none"`. -/
def labelsValue (namesJ : List Json) : Except Unit String :=
  match namesJ with
  | [] => .ok "none"
  | _ =>
    match exMapStr namesJ with
    | .error e => .error e
    | .ok names => .ok (joinComma names)

/-- Detection and publication for one successfully parsed job, recording
the external calls issued. A missing or empty document-store URL makes
`requests.post` raise before any HTTP attempt. -/
def detectAndPublish (env : AEnv) (arn : String) (bucket : Json) (image : String)
    (docUid : Json) : Outcome × List Effect :=
  match env.detect arn bucket image with
  | .error _ => (.failure, [.detect bucket image])
  | .ok resp =>
    match labelNames resp with
    | .error _ => (.failure, [.detect bucket image])
    | .ok namesJ =>
      match labelsValue namesJ with
      | .error _ => (.failure, [.detect bucket image])
      | .ok value =>
        match env.nuxeoUrl with
        | none => (.failure, [.detect bucket image])
        | some url =>
          if strEmpty url then (.failure, [.detect bucket image])
          else
            match env.post url ⟨"assetRecognition:landMark", "true", value, docUid⟩ with
            | .error _ =>
              (.failure, [.detect bucket image,
                          .publish url ⟨"assetRecognition:landMark", "true", value, docUid⟩])
            | .ok code =>
              if 400 ≤ code then
                (.failure, [.detect bucket image,
                            .publish url ⟨"assetRecognition:landMark", "true", value, docUid⟩])
              else
                (.success docUid namesJ code,
                 [.detect bucket image,
                  .publish url ⟨"assetRecognition:landMark", "true", value, docUid⟩])

/-- The per-message body of the batch loop: every exception raised at any
stage is caught and classifies the message as a Failure. -/
def processOne (env : AEnv) (arn : String) (msg : SqsMsg) : Outcome × List Effect :=
  match parseJob env msg.body with
  | .error _ => (.failure, [])
  | .ok (bucket, image, docUid) => detectAndPublish env arn bucket image docUid

/-- An entry of `processed_messages`. -/
structure SuccessEntry where
  docUid : Json
  labels : List Json
  nuxeoStatus : Nat

/-- The batch loop: processed entries in order, failed messages in order,
and the external effects issued. -/
def runBatch (env : AEnv) (arn : String) : List SqsMsg →
    List SuccessEntry × List SqsMsg × List Effect
  | [] => ([], [], [])
  | msg :: rest =>
    match processOne env arn msg with
    | (.success d l s, effs) =>
      (⟨d, l, s⟩ :: (runBatch env arn rest).1, (runBatch env arn rest).2.1,
       effs ++ (runBatch env arn rest).2.2)
    | (.failure, effs) =>
      ((runBatch env arn rest).1, msg :: (runBatch env arn rest).2.1,
       effs ++ (runBatch env arn rest).2.2)

/-- The handler's return value: the top-level configuration error
response, or the structured batch report. -/
inductive AnalyseReturn where
  | configError (status : String) (error : String)
  | report (status : String) (processed : Nat) (failed : Nat) (results : List SuccessEntry)

/-- `AnalyseImageFunction.lambda_handler`: configuration checks, the
per-message loop, the dead-letter forwarding pass, and the report.
The `if not dlq_url:` guard is Python truthiness: it returns the
configuration error both when the variable is unset and when it is set
to the empty string. A missing model ARN raises `KeyError` out of the
handler (`.error`). -/
def analyse_lambda_handler (env : AEnv) (records : List SqsMsg) :
    Except Unit AnalyseReturn × List Effect :=
  match env.dlqUrl with
  | none => (.ok (.configError "500" "DLQ_URL not configured"), [])
  | some dlq =>
    if strEmpty dlq then (.ok (.configError "500" "DLQ_URL not configured"), [])
    else
    match env.modelArn with
    | none => (.error (), [])
    | some arn =>
      (.ok (.report "200" (runBatch env arn records).1.length
              (runBatch env arn records).2.1.length (runBatch env arn records).1),
       (runBatch env arn records).2.2 ++
         (runBatch env arn records).2.1.map (fun m => .dlqSend m.body))

/-! ## sqs_poller.py — the backlog gate -/

/-- Numeric value of an ASCII digit character. -/
def digitVal (c : Char) : Nat := c.toNat - 48

/-- ASCII digit test. -/
def isDigitCh (c : Char) : Bool := 48 ≤ c.toNat && c.toNat ≤ 57

/-- Python `int(c)` on a one-character string: the digit's value, or
`ValueError` on a non-digit. -/
def pyIntOfDigit (c : Char) : Except Unit Nat :=
  if isDigitCh c then .ok (digitVal c) else .error ()

/-- `sqs_poller.lambda_handler`: reads the queue URL from the
environment, takes character `[0]` of the reported
`ApproximateNumberOfMessages` string, and returns `"incoming"` when its
integer value is positive, else `"stop"`. -/
def sqs_lambda_handler (queueUrl : Option String) (approxCount : String) :
    Except Unit String :=
  match queueUrl with
  | none => .error ()
  | some _ =>
    match approxCount.data with
    | [] => .error ()
    | c :: _ =>
      match pyIntOfDigit c with
      | .error e => .error e
      | .ok n => .ok (if 0 < n then "incoming" else "stop")

/-- The decimal value of a digit string (accumulator form). -/
def decValAux : List Char → Nat → Nat
  | [], a => a
  | c :: cs, a => decValAux cs (a * 10 + digitVal c)

/-- The decimal value of a digit string. -/
def decVal (s : String) : Nat := decValAux s.data 0

/-- The string is a canonical decimal numeral as SQS reports counts:
nonempty, all digits, and no leading zero unless it is exactly "0". -/
def isCanonDec (s : String) : Bool :=
  match s.data with
  | [] => false
  | c :: cs => isDigitCh c && cs.all isDigitCh && (decide (digitVal c ≠ 0) || cs.isEmpty)

/-! ## StartModelFunction.py — ensureRunning -/

/-- Python `arn.split("/")` (single-character separator). -/
def splitSlashAux : List Char → List Char → List String
  | [], acc => [String.mk acc.reverse]
  | c :: cs, acc =>
    if c = '/' then String.mk acc.reverse :: splitSlashAux cs []
    else splitSlashAux cs (c :: acc)

/-- Python `arn.split("/")`. -/
def splitSlash (s : String) : List String := splitSlashAux s.data []

/-- A start request issued to the detection backend, with its
`MinInferenceUnits` argument. -/
inductive StartEffect where
  | start (arn : String) (minInferenceUnits : Nat)

/-- Environment of `StartModelFunction.lambda_handler`. -/
structure StartEnv where
  projectVersionArn : Option String
  projectArn : Option String
  describe : String → String → Except Unit String
  startReq : String → Nat → Except Unit Json

/-- Return value of the start handler: the state string from the no-op
path, or the raw response of `start_project_version`. -/
inductive StartRet where
  | state (s : String)
  | raw (resp : Json)

/-- Whether the start handler's return value is a state string token. -/
def StartRet.isStateToken : StartRet → Bool
  | .state _ => true
  | .raw _ => false

/-- `StartModelFunction.lambda_handler`: fetch configuration (a missing
variable raises `KeyError`), derive the version name as component 3 of
the version ARN, describe the model, no-op when `RUNNING`/`STARTING`,
otherwise start it with `MinInferenceUnits=1` and return the raw start
response. -/
def start_lambda_handler (env : StartEnv) : Except Unit StartRet × List StartEffect :=
  match env.projectVersionArn with
  | none => (.error (), [])
  | some pva =>
    match env.projectArn with
    | none => (.error (), [])
    | some pa =>
      match (splitSlash pva).get? 3 with
      | none => (.error (), [])
      | some vname =>
        match env.describe pa vname with
        | .error e => (.error e, [])
        | .ok status =>
          if status = "RUNNING" || status = "STARTING" then
            (.ok (.state status), [])
          else
            match env.startReq pva 1 with
            | .error e => (.error e, [.start pva 1])
            | .ok resp => (.ok (.raw resp), [.start pva 1])

/-! ## StopModelFunction.py — ensureStopped and end-of-run notification -/

/-- External requests issued by the stop handler. -/
inductive StopEffect where
  | stop (arn : String)
  | notify (url : String) (toAddr : Json) (input : Json)

/-- Environment of `StopModelFunction.lambda_handler`. `describe`
returns `none` when `check_model_running_status` swallowed an
exception. `userEmail` and `collectionId` mirror `event.get(...)`
(`null` when absent). -/
structure StopEnv where
  projectVersionArn : Option String
  projectArn : Option String
  nuxeoEndpoint : Option String
  nuxeoUserName : Option String
  nuxeoPassword : Option String
  describe : String → String → Option String
  post : String → Json → Json → Except Unit Nat
  userEmail : Json
  collectionId : Json

/-- The distinct response dictionaries the stop handler can return. -/
inductive StopRet where
  | emailRequired
  | success (code : Nat)
  | nuxeoError
  | unexpectedStatus
  | envError
  | unexpected

/-- `get_environment_variable` with `required=True`: error when the
variable is unset or empty (Python truthiness). -/
def getEnvVar (v : Option String) : Except Unit String :=
  match v with
  | none => .error ()
  | some s => if strEmpty s then .error () else .ok s

/-- `send_nuxeo_request`: skipped with a 400 response when the user
email is falsy, otherwise one POST to the notification endpoint;
`raise_for_status` maps status ≥ 400 to the error response, 2xx is
success, and any other status is the unexpected-status response. -/
def sendNuxeo (env : StopEnv) (url : String) : StopRet × List StopEffect :=
  if !pyTruthy env.userEmail then (.emailRequired, [])
  else
    match env.post url env.userEmail env.collectionId with
    | .error _ => (.nuxeoError, [.notify url env.userEmail env.collectionId])
    | .ok code =>
      if 400 ≤ code then (.nuxeoError, [.notify url env.userEmail env.collectionId])
      else if 200 ≤ code && code < 300 then
        (.success code, [.notify url env.userEmail env.collectionId])
      else (.unexpectedStatus, [.notify url env.userEmail env.collectionId])

/-- The stop requests issued by `stop_model_if_running` guarded by the
truthiness check `if running_status:` in the handler. -/
def stopEffectsOf (st : Option String) (pva : String) : List StopEffect :=
  match st with
  | none => []
  | some s =>
    if strEmpty s then []
    else if s = "STARTING" || s = "RUNNING" then [.stop pva]
    else []

/-- `StopModelFunction.lambda_handler`: fetch the five required
environment variables (any missing one yields the environment-error
response), derive the version name (an index error is caught by the
generic handler), describe the model, stop it only when the described
state is `STARTING` or `RUNNING` (a describe failure is non-fatal), and
in every non-configuration case proceed to the notification request. -/
def stop_lambda_handler (env : StopEnv) : StopRet × List StopEffect :=
  match getEnvVar env.projectVersionArn with
  | .error _ => (.envError, [])
  | .ok pva =>
    match getEnvVar env.projectArn with
    | .error _ => (.envError, [])
    | .ok pa =>
      match getEnvVar env.nuxeoEndpoint with
      | .error _ => (.envError, [])
      | .ok ne =>
        match getEnvVar env.nuxeoUserName with
        | .error _ => (.envError, [])
        | .ok _ =>
          match getEnvVar env.nuxeoPassword with
          | .error _ => (.envError, [])
          | .ok _ =>
            match (splitSlash pva).get? 3 with
            | none => (.unexpected, [])
            | some vname =>
              let se := stopEffectsOf (env.describe pa vname) pva
              let nr := sendNuxeo env ne
              (nr.1, se ++ nr.2)

/-! ## Concrete payloads and environments used by witnesses -/

/-- Classifier for the dead-letter effect. -/
def Effect.isDlq : Effect → Bool
  | .dlqSend _ => true
  | _ => false

/-- Whether the start handler returned a state string token. -/
def retIsStateToken : Except Unit StartRet → Bool
  | .ok r => r.isStateToken
  | .error _ => false

/-- A well-formed S3 event record with a `+` in the object key. -/
def recJ : Json :=
  .obj [("s3", .obj [
    ("bucket", .obj [("name", .str "b1")]),
    ("object", .obj [("key", .str "foo+bar.jpg")]),
    ("documentUUID", .obj [("uid", .str "doc-1")])])]

/-- A second, junk record used to show trailing records are ignored. -/
def recJunk : Json := .str "junk"

/-- A payload whose `Records` list has exactly one record. -/
def payloadOne : Json := .obj [("Records", .arr [recJ])]

/-- A payload with the same first record and a junk second record. -/
def payloadTwo : Json := .obj [("Records", .arr [recJ, recJunk])]

/-- A detection response with two labels, in order. -/
def respCatDog : Json :=
  .obj [("CustomLabels", .arr [.obj [("Name", .str "cat")], .obj [("Name", .str "dog")]])]

/-- A detection response with an empty label list. -/
def respNoLabels : Json := .obj [("CustomLabels", .arr [])]

/-- A concrete JSON-parsing oracle: body "m1" parses to the one-record
payload, body "m2" to the two-record payload, anything else raises. -/
def parseW : String → Except Unit Json := fun s =>
  if s = "m1" then .ok payloadOne
  else if s = "m2" then .ok payloadTwo
  else .error ()

/-- A fully configured batch-consumer environment. -/
def envW : AEnv :=
  { nuxeoUrl := some "http://nx", nuxeoUser := some "u", nuxeoPassword := some "pw",
    dlqUrl := some "dlq", modelArn := some "arn-1", jsonParse := parseW,
    detect := fun _ _ _ => .ok respCatDog, post := fun _ _ => .ok 200 }

/-- The environment with every document-store setting absent. -/
def envC3 : AEnv :=
  { envW with nuxeoUrl := none, nuxeoUser := none, nuxeoPassword := none }

/-- The environment with the dead-letter queue URL absent. -/
def envNoDlq : AEnv := { envW with dlqUrl := none }

/-- A project version ARN whose component 3 is the version name. -/
def pvaW : String := "a:p/n/version/v1/123"

/-- Start-handler environment whose model is described as `STOPPED`. -/
def envStartStop : StartEnv :=
  { projectVersionArn := some pvaW, projectArn := some "pa",
    describe := fun _ _ => .ok "STOPPED",
    startReq := fun _ _ => .ok (.obj [("Status", .str "STARTING")]) }

/-- Start-handler environment whose model is described as `RUNNING`. -/
def envStartRun : StartEnv := { envStartStop with describe := fun _ _ => .ok "RUNNING" }

/-- Stop-handler environment whose model is described as `RUNNING`. -/
def envStopRun : StopEnv :=
  { projectVersionArn := some pvaW, projectArn := some "pa",
    nuxeoEndpoint := some "http://nx", nuxeoUserName := some "u",
    nuxeoPassword := some "pw", describe := fun _ _ => some "RUNNING",
    post := fun _ _ _ => .ok 200, userEmail := .str "user@x", collectionId := .str "c1" }

/-- Stop-handler environment whose describe call fails. -/
def envStopFail : StopEnv := { envStopRun with describe := fun _ _ => none }

/-! ## Lemmas about the batch consumer -/

theorem strEmpty_true_iff (s : String) : strEmpty s = true ↔ s = "" := by
  constructor
  · intro h
    cases s with
    | mk d =>
      have hd : d = [] := by simpa [strEmpty, List.isEmpty_iff] using h
      rw [hd]
  · intro h
    rw [h]
    rfl

theorem runBatch_length (env : AEnv) (arn : String) (ms : List SqsMsg) :
    (runBatch env arn ms).1.length + (runBatch env arn ms).2.1.length = ms.length := by
  induction ms with
  | nil => rfl
  | cons m rest ih =>
    unfold runBatch
    cases h : processOne env arn m with
    | mk o effs =>
      cases o with
      | success d l s =>
        simp only [List.length_cons]
        omega
      | failure =>
        simp only [List.length_cons]
        omega

theorem runBatch_append (env : AEnv) (arn : String) (xs ys : List SqsMsg) :
    runBatch env arn (xs ++ ys) =
      ((runBatch env arn xs).1 ++ (runBatch env arn ys).1,
       (runBatch env arn xs).2.1 ++ (runBatch env arn ys).2.1,
       (runBatch env arn xs).2.2 ++ (runBatch env arn ys).2.2) := by
  induction xs with
  | nil => rfl
  | cons m rest ih =>
    cases h : processOne env arn m with
    | mk o effs =>
      cases o with
      | success d l s =>
        simp only [List.cons_append, runBatch, h]
        simp [ih, List.append_assoc]
      | failure =>
        simp only [List.cons_append, runBatch, h]
        simp [ih, List.append_assoc]

theorem runBatch_failed (env : AEnv) (arn : String) (ms : List SqsMsg) :
    (runBatch env arn ms).2.1 =
      ms.filter (fun m => (processOne env arn m).1.isFailure) := by
  induction ms with
  | nil => rfl
  | cons m rest ih =>
    unfold runBatch
    cases h : processOne env arn m with
    | mk o effs =>
      cases o with
      | success d l s => simp [List.filter_cons, h, Outcome.isFailure, ih]
      | failure => simp [List.filter_cons, h, Outcome.isFailure, ih]

theorem detectAndPublish_no_dlq (env : AEnv) (arn : String) (bucket : Json)
    (image : String) (docUid : Json) :
    ∀ e ∈ (detectAndPublish env arn bucket image docUid).2, e.isDlq = false := by
  unfold detectAndPublish
  repeat' split
  all_goals simp [Effect.isDlq]

theorem processOne_no_dlq (env : AEnv) (arn : String) (m : SqsMsg) :
    ∀ e ∈ (processOne env arn m).2, e.isDlq = false := by
  unfold processOne
  split
  · simp
  · exact detectAndPublish_no_dlq env arn _ _ _

theorem runBatch_no_dlq (env : AEnv) (arn : String) (ms : List SqsMsg) :
    ∀ e ∈ (runBatch env arn ms).2.2, e.isDlq = false := by
  induction ms with
  | nil => simp [runBatch]
  | cons m rest ih =>
    have hm := processOne_no_dlq env arn m
    cases h : processOne env arn m with
    | mk o effs =>
      rw [h] at hm
      cases o with
      | success d l s =>
        simp only [runBatch, h]
        intro e he
        rcases List.mem_append.mp he with h1 | h2
        · exact hm e h1
        · exact ih e h2
      | failure =>
        simp only [runBatch, h]
        intro e he
        rcases List.mem_append.mp he with h1 | h2
        · exact hm e h1
        · exact ih e h2

theorem analyse_handler_eq (env : AEnv) (records : List SqsMsg) (d a : String)
    (h1 : env.dlqUrl = some d) (hne : strEmpty d = false)
    (h2 : env.modelArn = some a) :
    analyse_lambda_handler env records =
      (.ok (.report "200" (runBatch env a records).1.length
              (runBatch env a records).2.1.length (runBatch env a records).1),
       (runBatch env a records).2.2 ++
         (runBatch env a records).2.1.map (fun m => .dlqSend m.body)) := by
  unfold analyse_lambda_handler
  rw [h1]
  dsimp only
  rw [if_neg (by simp [hne]), h2]

theorem parseJob_ok_elim (env : AEnv) (body : String) (bucket : Json) (image : String)
    (docUid : Json) (h : parseJob env body = .ok (bucket, image, docUid)) :
    ∃ p r rawKey, env.jsonParse body = .ok p ∧ firstRecord p = .ok r ∧
      rawObjectKey r = .ok rawKey ∧ image = decodeKey rawKey := by
  unfold parseJob at h
  split at h
  · exact Except.noConfusion h
  next p hp =>
    split at h
    · exact Except.noConfusion h
    next r hr =>
      split at h
      · exact Except.noConfusion h
      next b hb =>
        split at h
        · exact Except.noConfusion h
        next rawKey hk =>
          split at h
          · exact Except.noConfusion h
          next du hd =>
            split at h
            · have h2 : image = decodeKey rawKey := by
                simp only [Except.ok.injEq, Prod.mk.injEq] at h
                exact h.2.1.symm
              exact ⟨p, r, rawKey, hp, hr, hk, h2⟩
            · exact Except.noConfusion h

theorem detectAndPublish_detect_args (env : AEnv) (arn : String) (b : Json)
    (i : String) (d : Json) (b2 : Json) (k : String)
    (h : Effect.detect b2 k ∈ (detectAndPublish env arn b i d).2) : b2 = b ∧ k = i := by
  unfold detectAndPublish at h
  repeat' split at h
  all_goals simp at h
  all_goals exact h

/-- C1: for every batch of N inbound messages, the returned report
satisfies processedCount + failedCount = N — each message is counted
exactly once, in the processed list or in the failed list. -/
theorem batch_report_counts (env : AEnv) (records : List SqsMsg) (d a : String)
    (h1 : env.dlqUrl = some d) (hne : strEmpty d = false)
    (h2 : env.modelArn = some a) :
    analyse_lambda_handler env records =
      (.ok (.report "200" (runBatch env a records).1.length
              (runBatch env a records).2.1.length (runBatch env a records).1),
       (runBatch env a records).2.2 ++
         (runBatch env a records).2.1.map (fun m => .dlqSend m.body))
    ∧ (runBatch env a records).1.length + (runBatch env a records).2.1.length
        = records.length :=
  ⟨analyse_handler_eq env records d a h1 hne h2, runBatch_length env a records⟩

/-- C1 witness: on a concrete two-message batch (one valid, one
unparseable) the counts sum to the batch size. -/
theorem batch_report_counts_witness :
    envW.dlqUrl = some "dlq" ∧ strEmpty "dlq" = false ∧ envW.modelArn = some "arn-1" ∧
    (runBatch envW "arn-1" [⟨"i1", "m1"⟩, ⟨"i2", "bad"⟩]).1.length
      + (runBatch envW "arn-1" [⟨"i1", "m1"⟩, ⟨"i2", "bad"⟩]).2.1.length = 2 :=
  ⟨rfl, rfl, rfl, (batch_report_counts envW [⟨"i1", "m1"⟩, ⟨"i2", "bad"⟩] "dlq" "arn-1"
    rfl rfl rfl).2⟩

/-- C2: per-message failures are isolated — the batch outcome decomposes
over any split of the batch, the failed list is exactly the per-message
classification of each message alone, the handler always returns a
structured report, and even when every message fails the report is still
returned with processed 0 and failed N. -/
theorem batch_failure_isolation (env : AEnv) (records : List SqsMsg) (d a : String)
    (h1 : env.dlqUrl = some d) (hne : strEmpty d = false)
    (h2 : env.modelArn = some a) :
    ((analyse_lambda_handler env records).1 =
       .ok (.report "200" (runBatch env a records).1.length
              (runBatch env a records).2.1.length (runBatch env a records).1))
    ∧ (∀ xs ys, runBatch env a (xs ++ ys) =
        ((runBatch env a xs).1 ++ (runBatch env a ys).1,
         (runBatch env a xs).2.1 ++ (runBatch env a ys).2.1,
         (runBatch env a xs).2.2 ++ (runBatch env a ys).2.2))
    ∧ ((runBatch env a records).2.1 =
        records.filter (fun m => (processOne env a m).1.isFailure))
    ∧ ((∀ m ∈ records, (processOne env a m).1.isFailure = true) →
        analyse_lambda_handler env records =
          (.ok (.report "200" 0 records.length []),
           (runBatch env a records).2.2 ++
             records.map (fun m => Effect.dlqSend m.body))) := by
  refine ⟨?_, fun xs ys => runBatch_append env a xs ys,
    runBatch_failed env a records, ?_⟩
  · rw [analyse_handler_eq env records d a h1 hne h2]
  · intro hall
    have hfs : (runBatch env a records).2.1 = records := by
      rw [runBatch_failed]
      exact List.filter_eq_self.mpr hall
    have hlen := runBatch_length env a records
    rw [hfs] at hlen
    have hps : (runBatch env a records).1 = [] :=
      List.eq_nil_of_length_eq_zero (by omega)
    rw [analyse_handler_eq env records d a h1 hne h2, hps, hfs]
    simp

/-- C2 witness: a batch whose only message fails still yields the
structured report with processed 0 and failed 1. -/
theorem batch_failure_isolation_witness :
    envW.dlqUrl = some "dlq" ∧ strEmpty "dlq" = false ∧
    analyse_lambda_handler envW [⟨"i9", "bad"⟩] =
      (.ok (.report "200" 0 1 []),
       (runBatch envW "arn-1" [⟨"i9", "bad"⟩]).2.2 ++ [Effect.dlqSend "bad"]) := by
  refine ⟨rfl, rfl, ?_⟩
  have h := (batch_failure_isolation envW [⟨"i9", "bad"⟩] "dlq" "arn-1" rfl rfl rfl).2.2.2
  exact h (by intro m hm; rw [List.mem_singleton] at hm; subst hm; rfl)

/-- C3 amended: an absent or empty dead-letter queue URL (both falsy at
`if not dlq_url:`) makes the invocation return a top-level error
response before any message is processed with no partial work, and with
a non-empty dead-letter URL an absent model version ARN makes the
invocation raise before any message is processed with no partial work. -/
theorem config_missing_abort_scope (env : AEnv) (records : List SqsMsg) :
    (env.dlqUrl = none →
      analyse_lambda_handler env records =
        (.ok (.configError "500" "DLQ_URL not configured"), []))
    ∧ (∀ d, env.dlqUrl = some d → strEmpty d = true →
      analyse_lambda_handler env records =
        (.ok (.configError "500" "DLQ_URL not configured"), []))
    ∧ (∀ d, env.dlqUrl = some d → strEmpty d = false → env.modelArn = none →
      analyse_lambda_handler env records = (.error (), [])) := by
  refine ⟨?_, ?_, ?_⟩
  · intro h
    unfold analyse_lambda_handler
    rw [h]
  · intro d hd he
    unfold analyse_lambda_handler
    rw [hd]
    dsimp only
    rw [if_pos he]
  · intro d hd he hm
    unfold analyse_lambda_handler
    rw [hd]
    dsimp only
    rw [if_neg (by simp [he]), hm]

/-- C3 counterexample: with every document-store setting absent (but the
queue URL and model ARN present) the invocation does not fail as a
whole: the message is processed, a detection call is issued and a
dead-letter send is performed, and the structured report is returned. -/
theorem config_missing_store_processes_anyway :
    envC3.nuxeoUrl = none ∧ envC3.nuxeoUser = none ∧ envC3.nuxeoPassword = none ∧
    analyse_lambda_handler envC3 [⟨"i1", "m1"⟩] =
      (.ok (.report "200" 0 1 []),
       [.detect (.str "b1") "foo bar.jpg", .dlqSend "m1"]) ∧
    (analyse_lambda_handler envC3 [⟨"i1", "m1"⟩]).2.isEmpty = false :=
  ⟨rfl, rfl, rfl, rfl, rfl⟩

/-- C3 amended witness: with the dead-letter URL absent the handler
returns the configuration error response and performs no work. -/
theorem config_missing_abort_scope_witness :
    envNoDlq.dlqUrl = none ∧
    analyse_lambda_handler envNoDlq [⟨"i1", "m1"⟩] =
      (.ok (.configError "500" "DLQ_URL not configured"), []) :=
  ⟨rfl, (config_missing_abort_scope envNoDlq [⟨"i1", "m1"⟩]).1 rfl⟩

/-- C7: every failed message's body is forwarded to the dead-letter
queue byte-identical to the input envelope body, and every dead-letter
send carries exactly the original body of some failed input message. -/
theorem dlq_body_verbatim (env : AEnv) (records : List SqsMsg) (d a : String)
    (h1 : env.dlqUrl = some d) (hne : strEmpty d = false)
    (h2 : env.modelArn = some a) :
    (∀ m ∈ records, (processOne env a m).1.isFailure = true →
       Effect.dlqSend m.body ∈ (analyse_lambda_handler env records).2)
    ∧ (∀ b, Effect.dlqSend b ∈ (analyse_lambda_handler env records).2 →
       ∃ m, m ∈ records ∧ (processOne env a m).1.isFailure = true ∧ b = m.body) := by
  rw [analyse_handler_eq env records d a h1 hne h2]
  constructor
  · intro m hm hf
    refine List.mem_append.mpr (Or.inr ?_)
    apply List.mem_map_of_mem
    rw [runBatch_failed]
    exact List.mem_filter.mpr ⟨hm, hf⟩
  · intro b hb
    rcases List.mem_append.mp hb with hes | hmap
    · have := runBatch_no_dlq env a records (Effect.dlqSend b) hes
      simp [Effect.isDlq] at this
    · rcases List.mem_map.mp hmap with ⟨m, hm, heq⟩
      rw [runBatch_failed] at hm
      rcases List.mem_filter.mp hm with ⟨hmem, hf⟩
      refine ⟨m, hmem, hf, ?_⟩
      injection heq with h
      exact h.symm

/-- C7 witness: the unparseable message's raw body "bad" is forwarded
verbatim to the dead-letter queue. -/
theorem dlq_body_verbatim_witness :
    Effect.dlqSend "bad" ∈ (analyse_lambda_handler envW [⟨"i1", "m1"⟩, ⟨"i2", "bad"⟩]).2 :=
  (dlq_body_verbatim envW [⟨"i1", "m1"⟩, ⟨"i2", "bad"⟩] "dlq" "arn-1" rfl rfl rfl).1
    ⟨"i2", "bad"⟩ (List.mem_cons_of_mem _ (List.mem_singleton.mpr rfl)) rfl

/-- C8: for every successfully processed message the published value is
the comma-joined concatenation of the label names returned by the
detector, in order, and exactly "none" when the label list is empty. -/
theorem publish_value_from_labels (env : AEnv) (arn : String) (msg : SqsMsg)
    (d : Json) (lbls : List Json) (code : Nat) (effs : List Effect)
    (h : processOne env arn msg = (.success d lbls code, effs)) :
    ∃ url v bucket image resp,
      env.detect arn bucket image = .ok resp ∧ labelNames resp = .ok lbls ∧
      Effect.publish url ⟨"assetRecognition:landMark", "true", v, d⟩ ∈ effs ∧
      labelsValue lbls = .ok v ∧
      (lbls = [] → v = "none") ∧
      (∀ names, exMapStr lbls = .ok names → lbls ≠ [] → v = joinComma names) := by
  unfold processOne at h
  split at h
  · exact absurd (congrArg Prod.fst h) (by simp)
  next bucket image docUid hp =>
    unfold detectAndPublish at h
    split at h
    · exact absurd (congrArg Prod.fst h) (by simp)
    next resp hdet =>
      split at h
      · exact absurd (congrArg Prod.fst h) (by simp)
      next namesJ hnames =>
        split at h
        · exact absurd (congrArg Prod.fst h) (by simp)
        next v hval =>
          split at h
          · exact absurd (congrArg Prod.fst h) (by simp)
          next url hurl =>
            split at h
            · exact absurd (congrArg Prod.fst h) (by simp)
            · split at h
              · exact absurd (congrArg Prod.fst h) (by simp)
              · split at h
                · exact absurd (congrArg Prod.fst h) (by simp)
                · simp only [Prod.mk.injEq, Outcome.success.injEq] at h
                  obtain ⟨⟨hd, hl, hc⟩, he⟩ := h
                  subst hd
                  subst hl
                  subst he
                  refine ⟨url, v, bucket, image, resp, hdet, hnames, ?_, hval, ?_, ?_⟩
                  · simp
                  · intro hnil
                    rw [hnil] at hval
                    simpa [labelsValue] using hval.symm
                  · intro names hm hne
                    cases namesJ with
                    | nil => exact absurd rfl hne
                    | cons x xs =>
                      simp only [labelsValue, hm, Except.ok.injEq] at hval
                      exact hval.symm

/-- C8 witness: the two-label detection response publishes "cat,dog"
for the concrete processed message. -/
theorem publish_value_from_labels_witness :
    processOne envW "arn-1" ⟨"i1", "m1"⟩ =
      (.success (.str "doc-1") [.str "cat", .str "dog"] 200,
       [.detect (.str "b1") "foo bar.jpg",
        .publish "http://nx" ⟨"assetRecognition:landMark", "true", "cat,dog", .str "doc-1"⟩])
    ∧ ∃ url v bucket image resp,
        envW.detect "arn-1" bucket image = .ok resp ∧
        labelNames resp = .ok [Json.str "cat", Json.str "dog"] ∧
        Effect.publish url ⟨"assetRecognition:landMark", "true", v, .str "doc-1"⟩ ∈
          [Effect.detect (.str "b1") "foo bar.jpg",
           Effect.publish "http://nx"
             ⟨"assetRecognition:landMark", "true", "cat,dog", .str "doc-1"⟩] ∧
        labelsValue [Json.str "cat", Json.str "dog"] = .ok v ∧
        ([Json.str "cat", Json.str "dog"] = ([] : List Json) → v = "none") ∧
        (∀ names, exMapStr [Json.str "cat", Json.str "dog"] = .ok names →
          [Json.str "cat", Json.str "dog"] ≠ ([] : List Json) → v = joinComma names) :=
  ⟨rfl, publish_value_from_labels envW "arn-1" ⟨"i1", "m1"⟩ (.str "doc-1")
    [Json.str "cat", Json.str "dog"] 200
    [.detect (.str "b1") "foo bar.jpg",
     .publish "http://nx" ⟨"assetRecognition:landMark", "true", "cat,dog", .str "doc-1"⟩]
    rfl⟩

/-- C9: every detection call's object key is the message's raw object
key with every '+' decoded to a space, computed before the key is used. -/
theorem detect_key_decoded (env : AEnv) (arn : String) (msg : SqsMsg)
    (bucket : Json) (key : String)
    (h : Effect.detect bucket key ∈ (processOne env arn msg).2) :
    ∃ p r rawKey docUid,
      env.jsonParse msg.body = .ok p ∧ firstRecord p = .ok r ∧
      rawObjectKey r = .ok rawKey ∧ key = decodeKey rawKey ∧
      parseJob env msg.body = .ok (bucket, key, docUid) := by
  unfold processOne at h
  split at h
  · simp at h
  next x b i du hp =>
    obtain ⟨hb, hk⟩ := detectAndPublish_detect_args env arn b i du bucket key h
    rw [hb, hk]
    obtain ⟨p, r, rawKey, hjp, hfr, hrk, hdec⟩ := parseJob_ok_elim env msg.body b i du hp
    exact ⟨p, r, rawKey, du, hjp, hfr, hrk, hdec, hp⟩

/-- C9 witness: the key "foo+bar.jpg" is passed to detection as
"foo bar.jpg". -/
theorem detect_key_decoded_witness :
    Effect.detect (.str "b1") "foo bar.jpg" ∈ (processOne envW "arn-1" ⟨"i1", "m1"⟩).2
    ∧ ∃ p r rawKey docUid, envW.jsonParse "m1" = .ok p ∧ firstRecord p = .ok r ∧
        rawObjectKey r = .ok rawKey ∧ "foo bar.jpg" = decodeKey rawKey ∧
        parseJob envW "m1" = .ok (.str "b1", "foo bar.jpg", docUid) :=
  ⟨List.mem_cons_self _ _,
   detect_key_decoded envW "arn-1" ⟨"i1", "m1"⟩ (.str "b1") "foo bar.jpg"
     (List.mem_cons_self _ _)⟩

/-- C10: only the first record of the parsed body's Records list is
used — two messages whose payloads share the same first record get the
same classification, detection call, and publish value, whatever the
records after the first contain. -/
theorem only_first_record_used (env : AEnv) (arn : String)
    (id1 id2 b1 b2 : String) (p1 p2 r : Json) (t1 t2 : List Json)
    (h1 : env.jsonParse b1 = .ok p1) (h2 : env.jsonParse b2 = .ok p2)
    (hin1 : pyIn p1 "Records" = .ok true) (hin2 : pyIn p2 "Records" = .ok true)
    (hk1 : p1.getKey "Records" = .ok (.arr (r :: t1)))
    (hk2 : p2.getKey "Records" = .ok (.arr (r :: t2))) :
    processOne env arn ⟨id1, b1⟩ = processOne env arn ⟨id2, b2⟩ := by
  have hr1 : firstRecord p1 = .ok r := by
    unfold firstRecord
    rw [hin1, hk1]
    rfl
  have hr2 : firstRecord p2 = .ok r := by
    unfold firstRecord
    rw [hin2, hk2]
    rfl
  unfold processOne parseJob
  simp only [h1, h2, hr1, hr2]

/-- C10 witness: the one-record payload and the two-record payload with
the same first record process identically. -/
theorem only_first_record_used_witness :
    envW.jsonParse "m1" = .ok payloadOne ∧ envW.jsonParse "m2" = .ok payloadTwo ∧
    payloadTwo.getKey "Records" = .ok (.arr [recJ, recJunk]) ∧
    processOne envW "arn-1" ⟨"i1", "m1"⟩ = processOne envW "arn-1" ⟨"i2", "m2"⟩ :=
  ⟨rfl, rfl, rfl,
   only_first_record_used envW "arn-1" "i1" "i2" "m1" "m2" payloadOne payloadTwo recJ
     [] [recJunk] rfl rfl rfl rfl rfl rfl⟩

/-! ## Backlog gate (sqs_poller.py) -/

theorem decValAux_ge (l : List Char) : ∀ a : Nat, a ≤ decValAux l a := by
  induction l with
  | nil => intro a; exact Nat.le_refl a
  | cons c cs ih =>
    intro a
    simp only [decValAux]
    have h1 : a ≤ a * 10 + digitVal c := by omega
    exact Nat.le_trans h1 (ih (a * 10 + digitVal c))

/-- C4 counterexample: at reported count 1 the gate returns the token
"incoming", not "continue". -/
theorem backlog_gate_not_continue :
    sqs_lambda_handler (some "q") "1" = .ok "incoming" ∧
    ¬ sqs_lambda_handler (some "q") "1" = .ok "continue" := by
  constructor
  · rfl
  · intro hcon
    injection hcon with h2
    exact absurd h2 (by decide)

/-- C4 amended: for a canonical decimal count string the gate returns
the sentinel "incoming" when the reported count is greater than 0 and
the sentinel "stop" when the count is 0. -/
theorem backlog_gate_tokens (u s : String) (hc : isCanonDec s = true) :
    sqs_lambda_handler (some u) s =
      .ok (if 0 < decVal s then "incoming" else "stop") := by
  cases s with
  | mk data =>
    cases data with
    | nil => simp [isCanonDec] at hc
    | cons c cs =>
      simp only [isCanonDec, Bool.and_eq_true, Bool.or_eq_true,
        decide_eq_true_eq] at hc
      obtain ⟨⟨hdig, hall⟩, hlast⟩ := hc
      unfold sqs_lambda_handler pyIntOfDigit
      dsimp only
      rw [if_pos hdig]
      dsimp only
      rcases Nat.eq_zero_or_pos (digitVal c) with hz | hpos
      · have hcs : cs = [] := by
          rcases hlast with hne | hemp
          · exact absurd hz hne
          · exact List.isEmpty_iff.mp hemp
        subst hcs
        rw [hz]
        simp [decVal, decValAux, hz]
      · have hlt : 0 < decVal (String.mk (c :: cs)) := by
          have h1 : decVal (String.mk (c :: cs)) = decValAux cs (0 * 10 + digitVal c) := rfl
          have h2 := decValAux_ge cs (0 * 10 + digitVal c)
          omega
        rw [if_pos hpos, if_pos hlt]

/-- C4 witness: count "0" yields the stop token, count "1" falls in the
positive branch. -/
theorem backlog_gate_tokens_witness :
    isCanonDec "0" = true ∧
    sqs_lambda_handler (some "q") "0" =
      .ok (if 0 < decVal "0" then "incoming" else "stop") :=
  ⟨rfl, backlog_gate_tokens "q" "0" rfl⟩

/-! ## Model start (StartModelFunction.py) -/

/-- C5 counterexample: when the described state is STOPPED the handler
issues the start request but returns the raw start response, which is
not a state string token. -/
theorem start_return_not_state_token :
    start_lambda_handler envStartStop =
      (.ok (.raw (.obj [("Status", .str "STARTING")])), [.start pvaW 1]) ∧
    retIsStateToken (start_lambda_handler envStartStop).1 = false :=
  ⟨rfl, rfl⟩

/-- C5 amended: if the described state is RUNNING or STARTING the
handler issues zero start requests and returns that state as a string
token; otherwise it issues exactly one start request with
MinInferenceUnits fixed to 1 and, when the start call succeeds, returns
the raw start response rather than a state string. -/
theorem ensure_running_behaviour (env : StartEnv) (pva pa vname st : String)
    (h1 : env.projectVersionArn = some pva) (h2 : env.projectArn = some pa)
    (h3 : (splitSlash pva).get? 3 = some vname)
    (h4 : env.describe pa vname = .ok st) :
    ((st = "RUNNING" ∨ st = "STARTING") →
       start_lambda_handler env = (.ok (.state st), []))
    ∧ (st ≠ "RUNNING" → st ≠ "STARTING" →
       (start_lambda_handler env).2 = [.start pva 1]
       ∧ ∀ resp, env.startReq pva 1 = .ok resp →
           start_lambda_handler env = (.ok (.raw resp), [.start pva 1])) := by
  constructor
  · intro hor
    have hcond : (st = "RUNNING" || st = "STARTING") = true := by
      rcases hor with h | h <;> simp [h]
    unfold start_lambda_handler
    simp only [h1, h2, h3, h4]
    rw [if_pos hcond]
  · intro hn1 hn2
    have hcond : (st = "RUNNING" || st = "STARTING") = false := by
      simp [hn1, hn2]
    unfold start_lambda_handler
    simp only [h1, h2, h3, h4]
    rw [if_neg (by simp [hcond])]
    cases hsr : env.startReq pva 1 with
    | error e =>
      refine ⟨rfl, ?_⟩
      intro resp hresp
      exact Except.noConfusion hresp
    | ok resp0 =>
      refine ⟨rfl, ?_⟩
      intro resp hresp
      injection hresp with h5
      rw [h5]

/-- C5 amended witness: with the model described as RUNNING the handler
is a no-op returning the state string. -/
theorem ensure_running_behaviour_witness :
    envStartRun.describe "pa" "v1" = .ok "RUNNING" ∧
    start_lambda_handler envStartRun = (.ok (.state "RUNNING"), []) :=
  ⟨rfl, (ensure_running_behaviour envStartRun pvaW "pa" "v1" "RUNNING"
    rfl rfl rfl rfl).1 (Or.inl rfl)⟩

/-! ## Model stop (StopModelFunction.py) -/

theorem sendNuxeo_no_stop (env : StopEnv) (u a : String) :
    StopEffect.stop a ∉ (sendNuxeo env u).2 := by
  unfold sendNuxeo
  repeat' split
  all_goals simp

theorem stop_handler_eq (env : StopEnv) (pva pa ne nu np vname : String)
    (h1 : getEnvVar env.projectVersionArn = .ok pva)
    (h2 : getEnvVar env.projectArn = .ok pa)
    (h3 : getEnvVar env.nuxeoEndpoint = .ok ne)
    (h4 : getEnvVar env.nuxeoUserName = .ok nu)
    (h5 : getEnvVar env.nuxeoPassword = .ok np)
    (h6 : (splitSlash pva).get? 3 = some vname) :
    stop_lambda_handler env =
      ((sendNuxeo env ne).1,
       stopEffectsOf (env.describe pa vname) pva ++ (sendNuxeo env ne).2) := by
  unfold stop_lambda_handler
  simp only [h1, h2, h3, h4, h5, h6]

theorem stop_mem_stopEffectsOf (st : Option String) (pva : String) :
    StopEffect.stop pva ∈ stopEffectsOf st pva ↔
      ∃ s, st = some s ∧ (s = "STARTING" ∨ s = "RUNNING") := by
  cases st with
  | none =>
    constructor
    · intro h
      exact absurd h (List.not_mem_nil _)
    · rintro ⟨s, hs, -⟩
      exact Option.noConfusion hs
  | some s =>
    unfold stopEffectsOf
    dsimp only
    by_cases hemp : strEmpty s = true
    · rw [if_pos hemp]
      constructor
      · intro h
        exact absurd h (List.not_mem_nil _)
      · rintro ⟨s2, hs2, hor⟩
        injection hs2 with hs2e
        subst hs2e
        have hz : s = "" := (strEmpty_true_iff s).mp hemp
        subst hz
        rcases hor with h | h <;> exact absurd h (by decide)
    · rw [if_neg hemp]
      by_cases hc : (s = "STARTING" || s = "RUNNING") = true
      · rw [if_pos hc]
        constructor
        · intro h
          exact ⟨s, rfl, by simpa using hc⟩
        · intro h
          exact List.mem_singleton.mpr rfl
      · rw [if_neg hc]
        constructor
        · intro h
          exact absurd h (List.not_mem_nil _)
        · rintro ⟨s2, hs2, hor⟩
          injection hs2 with hs2e
          subst hs2e
          exact absurd (show (s = "STARTING" || s = "RUNNING") = true by
            simpa using hor) hc

/-- C6: a stop request is issued iff the described state is STARTING or
RUNNING (in particular zero stop requests when STOPPED), and when the
describe call fails no stop request is issued and the handler still
proceeds to the notification step instead of failing the invocation. -/
theorem ensure_stopped_behaviour (env : StopEnv) (pva pa ne nu np vname : String)
    (h1 : getEnvVar env.projectVersionArn = .ok pva)
    (h2 : getEnvVar env.projectArn = .ok pa)
    (h3 : getEnvVar env.nuxeoEndpoint = .ok ne)
    (h4 : getEnvVar env.nuxeoUserName = .ok nu)
    (h5 : getEnvVar env.nuxeoPassword = .ok np)
    (h6 : (splitSlash pva).get? 3 = some vname) :
    (StopEffect.stop pva ∈ (stop_lambda_handler env).2 ↔
       ∃ st, env.describe pa vname = some st ∧ (st = "STARTING" ∨ st = "RUNNING"))
    ∧ (env.describe pa vname = some "STOPPED" →
        StopEffect.stop pva ∉ (stop_lambda_handler env).2)
    ∧ (env.describe pa vname = none →
        stop_lambda_handler env = sendNuxeo env ne) := by
  have heq := stop_handler_eq env pva pa ne nu np vname h1 h2 h3 h4 h5 h6
  refine ⟨?_, ?_, ?_⟩
  · rw [heq]
    constructor
    · intro hmem
      rcases List.mem_append.mp hmem with hs | hn
      · exact (stop_mem_stopEffectsOf _ _).mp hs
      · exact absurd hn (sendNuxeo_no_stop env ne pva)
    · intro hex
      exact List.mem_append.mpr (Or.inl ((stop_mem_stopEffectsOf _ _).mpr hex))
  · intro hd
    rw [heq, hd]
    intro hmem
    rcases List.mem_append.mp hmem with hs | hn
    · rw [show stopEffectsOf (some "STOPPED") pva = [] from rfl] at hs
      exact absurd hs (List.not_mem_nil _)
    · exact absurd hn (sendNuxeo_no_stop env ne pva)
  · intro hd
    rw [heq, hd]
    simp [stopEffectsOf]

/-- C6 witness: with the model described as RUNNING the stop request is
issued for the configured version ARN. -/
theorem ensure_stopped_behaviour_witness :
    getEnvVar envStopRun.projectVersionArn = .ok pvaW ∧
    envStopRun.describe "pa" "v1" = some "RUNNING" ∧
    StopEffect.stop pvaW ∈ (stop_lambda_handler envStopRun).2 :=
  ⟨rfl, rfl,
   (ensure_stopped_behaviour envStopRun pvaW "pa" "http://nx" "u" "pw" "v1"
      rfl rfl rfl rfl rfl rfl).1.mpr ⟨"RUNNING", rfl, Or.inr rfl⟩⟩
